import Mathlib

/-!
Shallow embedding of the OpenId4VcIssuerService issuance engine
(src/packages/openid4vc/src/openid4vc-issuer/OpenId4VcIssuerService.ts).

External collaborators (JWT proof verification, DID resolution, the
format-matching helper of the oid4vci library, the host mapping callback
and the format-specific signers) are modelled as oracle functions carried
in an `Env` record and universally quantified in the theorems. Nonce
tokens are modelled structurally (a record standing for the compact JWS),
with signatures idealised as the fingerprint of the signing key: a
signature verifies against exactly the key that produced it, which is the
EUF-CMA idealisation of `JwsService.verifyJws` with a resolver returning
the issuer's current key.
-/

/-- Modelled from the spec (the enum `OpenId4VcIssuanceSessionState` lives
outside src/): the session lifecycle states of section 4.1, including the
terminal `Error` state. -/
inductive SessionState where
  | offerCreated
  | offerUriRetrieved
  | accessTokenCreated
  | credentialRequestReceived
  | credentialsPartiallyIssued
  | completed
  | error
deriving DecidableEq, Repr

/-- Module configuration relevant to the embedded operations: the base URL
under which issuer URLs are formed and the configured cNonce lifetime
(`nonceEndpoint.cNonceExpiresInSeconds`). -/
structure Config where
  baseUrl : String
  cNonceExpiresInSeconds : Nat
deriving DecidableEq, Repr

/-- Credential configuration descriptor as far as the engine inspects it:
its declared format profile (matching against the request format is
delegated to the oid4vci library, modelled as an oracle). -/
structure CredentialConfiguration where
  format : String
deriving DecidableEq, Repr

/-- The issuer record (`OpenId4VcIssuerRecord`): identifier, current
access-token/nonce signing key fingerprint, optional external
authorization-server configs (by issuer URL) and the supported credential
configurations keyed by configuration id. -/
structure IssuerRecord where
  issuerId : String
  accessTokenPublicKeyFingerprint : String
  authorizationServerConfigs : Option (List String)
  credentialConfigurationsSupported : List (String × CredentialConfiguration)
deriving DecidableEq, Repr

/-- The issuance session record (`OpenId4VcIssuanceSessionRecord`) as far
as `createCredentialResponse` reads and writes it: owning issuer, state,
the offer payload's `credential_configuration_ids`, the ordered list of
already-issued configuration ids, and the bound client id. -/
structure Session where
  issuerId : String
  state : SessionState
  credentialOfferPayload : List String
  issuedCredentials : List String
  clientId : Option String
deriving DecidableEq, Repr

/-- State-changed event payload: previous state (`none` on creation) and
the session's new state (`emitStateChangedEvent`). -/
structure StateChangedEvent where
  previousState : Option SessionState
  newState : SessionState
deriving DecidableEq, Repr

/-- Structural model of a cNonce compact JWS: protected header fields
`typ` and `kid`, payload claims `iss` and `exp`, and the idealised
signature recorded as the fingerprint of the key that signed it. -/
structure NonceJwt where
  typ : String
  kid : String
  iss : String
  exp : Nat
  sigFp : String
deriving DecidableEq, Repr

/-- Issuer URL formation: `joinUriParts(config.baseUrl, [issuerId])`. -/
def mkIssuerUrl (cfg : Config) (issuerId : String) : String :=
  cfg.baseUrl ++ "/" ++ issuerId

/-- Embedding of `createNonce`: the minted token fixes `typ` to the
private tag, `kid` to the issuer's current fingerprint, `iss` to the
issuer's published URL and `exp` to now plus the configured lifetime, and
is signed with the current key. -/
def createNonceJwt (cfg : Config) (issuer : IssuerRecord) (now : Nat) : NonceJwt :=
  { typ := "credo+cnonce"
    kid := issuer.accessTokenPublicKeyFingerprint
    iss := mkIssuerUrl cfg issuer.issuerId
    exp := now + cfg.cNonceExpiresInSeconds
    sigFp := issuer.accessTokenPublicKeyFingerprint }

/-- Embedding of `verifyNonce` (boolean form; the TS method throws on the
first failed check and the caller collapses every failure to a single
`InvalidNonce` outcome): payload not expired (`jwt.payload.validate()`),
`iss` equals the issuer's published URL, header `typ` equals the fixed
tag, and the signature verifies against the key identified by the
issuer's current fingerprint. -/
def verifyNonce (cfg : Config) (issuer : IssuerRecord) (now : Nat) (jwt : NonceJwt) : Bool :=
  decide (now < jwt.exp) &&
  jwt.iss == mkIssuerUrl cfg issuer.issuerId &&
  jwt.typ == "credo+cnonce" &&
  jwt.sigFp == issuer.accessTokenPublicKeyFingerprint

/-- Embedding of `rotateAccessTokenSigningKey`: an atomic pointer swap of
the issuer's signing-key fingerprint to that of a freshly created key. -/
def rotateAccessTokenSigningKey (issuer : IssuerRecord) (newFingerprint : String) : IssuerRecord :=
  { issuer with accessTokenPublicKeyFingerprint := newFingerprint }

/-- Result of `getIssuerMetadata` as far as the claims inspect it: the
`authorization_servers` field of the published credential-issuer document
(`none` means the field is omitted) and the list of authorization-server
descriptors, each identified here by its issuer URL. -/
structure IssuerMetadataResult where
  authorizationServersField : Option (List String)
  authorizationServerDescriptors : List String
deriving DecidableEq, Repr

/-- Embedding of `getIssuerMetadata`: the credential-issuer document lists
the external authorization-server issuers followed by the issuer's own URL
when at least one external config exists, and omits the field otherwise;
the returned descriptor list always starts with the self-issued
authorization-server descriptor, followed by externally fetched metadata
when `fetchExternalAuthorizationServerMetadata` is set. -/
def getIssuerMetadata (cfg : Config) (issuer : IssuerRecord)
    (fetchExternalAuthorizationServerMetadata : Bool) : IssuerMetadataResult :=
  let issuerUrl := mkIssuerUrl cfg issuer.issuerId
  let extra : List String :=
    if fetchExternalAuthorizationServerMetadata then
      (issuer.authorizationServerConfigs.getD [])
    else []
  let authorizationServers : Option (List String) :=
    match issuer.authorizationServerConfigs with
    | some configs => if configs.length > 0 then some (configs ++ [issuerUrl]) else none
    | none => none
  { authorizationServersField := authorizationServers
    authorizationServerDescriptors := issuerUrl :: extra }

/-- Holder-key reference extracted from a validated proof-of-possession
token (`JwtSigner` of the oauth2 library): the engine supports `jwk` and
`did` and rejects `x5c` and `custom`. -/
inductive ProofSigner where
  | jwk (keyFingerprint : String)
  | did (didUrl : String)
  | x5c
  | custom
deriving DecidableEq, Repr

/-- Result the external `verifyCredentialRequestJwtProof` collaborator
returns for one proof token: the extracted signer and the optional `nonce`
payload claim (modelled structurally; an unparseable nonce string behaves
like a structurally present token failing every verification check). -/
structure ProofVerificationResult where
  signer : ProofSigner
  nonce : Option NonceJwt
deriving DecidableEq, Repr

/-- Resolved holder binding (`OpenId4VcCredentialHolderBindingWithKey`). -/
inductive HolderBinding where
  | jwk (keyFingerprint : String)
  | did (didUrl : String) (keyFingerprint : String)
deriving DecidableEq, Repr

/-- Claim formats the signing dispatcher accepts (`ClaimFormat` values of
the core library that the dispatcher handles). -/
inductive SigningClaimFormat where
  | jwtVc
  | ldpVc
  | sdJwtVc
  | msoMdoc
deriving DecidableEq, Repr

/-- Format profile strings of `OpenId4VciCredentialFormatProfile`. -/
def formatProfileJwtVcJson : String := "jwt_vc_json"

/-- Format profile string for the JSON-LD JWT profile. -/
def formatProfileJwtVcJsonLd : String := "jwt_vc_json-ld"

/-- Format profile string for the linked-data profile. -/
def formatProfileLdpVc : String := "ldp_vc"

/-- Format profile string for the selective-disclosure JWT profile. -/
def formatProfileSdJwtVc : String := "vc+sd-jwt"

/-- Format profile string for the mobile-document profile. -/
def formatProfileMsoMdoc : String := "mso_mdoc"

/-- Format-specific part of a parsed credential request
(`CredentialRequestFormatSpecific`): the format profile plus the declared
type claim (`vct`) for SD-JWT requests and the document type (`doctype`)
for mdoc requests. -/
structure RequestFormat where
  format : String
  vct : Option String
  doctype : Option String
deriving DecidableEq, Repr

/-- Unsigned credential payload produced by the host mapping callback, as
far as the dispatcher inspects it: the declared `vct` claim, the declared
`docType`, and an opaque body handed to the format-specific signer. -/
structure UnsignedCredential where
  vct : Option String
  docType : Option String
  body : String
deriving DecidableEq, Repr

/-- Host-supplied sign options returned by the credential-request-to-
credential mapper: chosen configuration id, target claim format and one
unsigned payload per holder binding. -/
structure SignOptions where
  credentialConfigurationId : String
  format : SigningClaimFormat
  credentials : List UnsignedCredential
deriving DecidableEq, Repr

/-- Input the engine passes to the host mapping callback. -/
structure MapperInput where
  issuanceSession : Session
  holderBindings : List HolderBinding
  credentialConfigurationIds : List String
  requestFormat : RequestFormat
deriving DecidableEq, Repr

/-- Raw proof field of the credential request: the singular `proof` field
carries exactly one token, the `proofs` field carries a batch. -/
inductive ProofsField where
  | single (jwt : String)
  | batch (jwts : List String)
deriving DecidableEq, Repr

/-- Parsed credential request (`vcIssuer.parseCredentialRequest` output as
the service destructures it): optional identifier-based addressing,
optional known format, and the raw proof field. -/
structure ParsedRequest where
  credentialIdentifier : Option String
  format : Option RequestFormat
  proofsField : Option ProofsField
deriving DecidableEq, Repr

/-- Normalised proof JWT list (`proofs?.jwt` of the parsed request). -/
def ParsedRequest.proofJwts (req : ParsedRequest) : List String :=
  match req.proofsField with
  | some (.single jwt) => [jwt]
  | some (.batch jwts) => jwts
  | none => []

/-- External collaborators of `createCredentialResponse`, modelled as
oracle functions: proof verification, DID key resolution, the oid4vci
format-matching helper, the host mapping callback and the format-specific
signers. An oracle returning `none` models the collaborator throwing. -/
structure Env where
  verifyProof : String → Option ProofVerificationResult
  resolveDid : String → Option String
  matchesFormat : RequestFormat → CredentialConfiguration → Bool
  mapper : MapperInput → SignOptions
  signW3c : UnsignedCredential → String
  signSdJwt : UnsignedCredential → String
  signMdoc : UnsignedCredential → String

/-- Errors `createCredentialResponse` can surface. Proof-related protocol
errors carry the freshly minted cNonce and its lifetime exactly as the
thrown `Oauth2ServerErrorResponseError` carries `c_nonce` and
`c_nonce_expires_in`. `mapperCredentialCountMismatch` mirrors the
`CredoError` whose message reports the mapper credential count against the
holder-binding count; the source throws this same message template from
both the already-issued branch and the count-mismatch branch of
`getSignedCredentials`. -/
inductive Err where
  | illegalSessionState
  | invalidCredentialRequest
  | unsupportedCredentialFormat
  | missingProof (cNonce : NonceJwt) (expiresIn : Nat)
  | proofVerificationFailed
  | missingNonceInProof (cNonce : NonceJwt) (expiresIn : Nat)
  | inconsistentNonce (cNonce : NonceJwt) (expiresIn : Nat)
  | invalidNonce (cNonce : NonceJwt) (expiresIn : Nat)
  | unsupportedHolderBindingMethod
  | didResolutionFailed
  | credentialRequestDenied
  | mapperCredentialCountMismatch (returned : Nat) (bindings : Nat)
  | signOptionsFormatMismatch
  | vctMismatch
  | doctypeMismatch
deriving DecidableEq, Repr

/-- Credential response returned on success: singular `credential` field,
plural `credentials` field, and the response cNonce with its lifetime. -/
structure CredentialResponse where
  credential : Option String
  credentials : Option (List String)
  cNonce : NonceJwt
  cNonceExpiresIn : Nat
deriving DecidableEq, Repr

deriving instance DecidableEq for Except

/-- Outcome of one `createCredentialResponse` invocation: the session as
persisted when the call returns or throws, the emitted state-changed
events in order, and the protocol result. -/
structure Outcome where
  session : Session
  events : List StateChangedEvent
  result : Except Err CredentialResponse
deriving DecidableEq, Repr

/-- States `createCredentialResponse` asserts on entry. -/
def credentialResponseAllowedStates : List SessionState :=
  [SessionState.offerUriRetrieved, SessionState.accessTokenCreated,
   SessionState.credentialRequestReceived, SessionState.credentialsPartiallyIssued]

/-- Embedding of `updateState`: persist the new state and emit an event
carrying the previous and new state. -/
def updateState (session : Session) (newState : SessionState) : Session × StateChangedEvent :=
  ({ session with state := newState },
   { previousState := some session.state, newState := newState })

/-- Proof-batch loop of `createCredentialResponse` (step 4): verify each
proof token in submission order, require a nonce claim, require all nonce
claims equal to the first, verify the nonce against the issuer, and
collect the extracted signers. -/
def processProofs (env : Env) (cfg : Config) (issuer : IssuerRecord) (now : Nat) :
    List String → Option NonceJwt → Except Err (List ProofSigner)
  | [], _ => .ok []
  | jwt :: rest, previousNonce =>
    match env.verifyProof jwt with
    | none => .error .proofVerificationFailed
    | some res =>
      match res.nonce with
      | none => .error (.missingNonceInProof (createNonceJwt cfg issuer now) cfg.cNonceExpiresInSeconds)
      | some nonce =>
        let expected := previousNonce.getD nonce
        if expected ≠ nonce then
          .error (.inconsistentNonce (createNonceJwt cfg issuer now) cfg.cNonceExpiresInSeconds)
        else if !verifyNonce cfg issuer now nonce then
          .error (.invalidNonce (createNonceJwt cfg issuer now) cfg.cNonceExpiresInSeconds)
        else
          (processProofs env cfg issuer now rest (some expected)).map (res.signer :: ·)

/-- Embedding of `getHolderBindingFromRequestProofs`: `x5c` and `custom`
signers are rejected, `jwk` signers yield the embedded key, `did` signers
resolve key material through the external DID resolver. -/
def getHolderBindingFromRequestProofs (env : Env) :
    List ProofSigner → Except Err (List HolderBinding)
  | [] => .ok []
  | signer :: rest =>
    match signer with
    | .custom => .error .unsupportedHolderBindingMethod
    | .x5c => .error .unsupportedHolderBindingMethod
    | .jwk fp => (getHolderBindingFromRequestProofs env rest).map (HolderBinding.jwk fp :: ·)
    | .did url =>
      match env.resolveDid url with
      | none => .error .didResolutionFailed
      | some fp => (getHolderBindingFromRequestProofs env rest).map (HolderBinding.did url fp :: ·)

/-- Map of `oid4vciFormatMap` in the W3C branch of `getSignedCredentials`:
the expected claim format for a W3C request format profile. -/
def oid4vciFormatMap (formatProfile : String) : Option SigningClaimFormat :=
  if formatProfile = formatProfileJwtVcJson then some .jwtVc
  else if formatProfile = formatProfileJwtVcJsonLd then some .jwtVc
  else if formatProfile = formatProfileLdpVc then some .ldpVc
  else none

/-- Result of `getSignedCredentials`: chosen configuration id, the format
profile of the produced credentials, and the encoded credentials. -/
structure SignedCredentials where
  credentialConfigurationId : String
  format : String
  credentials : List String
deriving DecidableEq, Repr

/-- Format-specific dispatch of `getSignedCredentials` (section 4.4):
W3C formats check the request profile against the returned claim format
through `oid4vciFormatMap`; SD-JWT requires every payload `vct` to equal
the request `vct`; mdoc requires every payload `docType` to equal the
request `doctype`; each then delegates to the external signer. -/
def dispatchSigning (env : Env) (requestFormat : RequestFormat)
    (signOptions : SignOptions) : Except Err SignedCredentials :=
  match signOptions.format with
  | .jwtVc =>
    if oid4vciFormatMap requestFormat.format ≠ some .jwtVc then
      .error .signOptionsFormatMismatch
    else
      .ok { credentialConfigurationId := signOptions.credentialConfigurationId
            format := requestFormat.format
            credentials := signOptions.credentials.map env.signW3c }
  | .ldpVc =>
    if oid4vciFormatMap requestFormat.format ≠ some .ldpVc then
      .error .signOptionsFormatMismatch
    else
      .ok { credentialConfigurationId := signOptions.credentialConfigurationId
            format := requestFormat.format
            credentials := signOptions.credentials.map env.signW3c }
  | .sdJwtVc =>
    if requestFormat.format ≠ formatProfileSdJwtVc then
      .error .signOptionsFormatMismatch
    else if !signOptions.credentials.all (fun c => c.vct = requestFormat.vct) then
      .error .vctMismatch
    else
      .ok { credentialConfigurationId := signOptions.credentialConfigurationId
            format := formatProfileSdJwtVc
            credentials := signOptions.credentials.map env.signSdJwt }
  | .msoMdoc =>
    if requestFormat.format ≠ formatProfileMsoMdoc then
      .error .signOptionsFormatMismatch
    else if !signOptions.credentials.all (fun c => c.docType = requestFormat.doctype) then
      .error .doctypeMismatch
    else
      .ok { credentialConfigurationId := signOptions.credentialConfigurationId
            format := formatProfileMsoMdoc
            credentials := signOptions.credentials.map env.signMdoc }

/-- Configuration ids of the offer not yet issued in this session. -/
def notIssuedConfigurationIds (session : Session) : List String :=
  session.credentialOfferPayload.filter
    (fun id => !session.issuedCredentials.contains id)

/-- Unissued offered configuration ids whose supported configuration
matches the request format (`getOfferedCredentials` composed with
`getCredentialConfigurationsMatchingRequestFormat`; an offered id with no
supported configuration contributes nothing). -/
def matchingConfigurationIds (env : Env) (issuer : IssuerRecord)
    (session : Session) (requestFormat : RequestFormat) : List String :=
  (notIssuedConfigurationIds session).filter
    (fun id =>
      match issuer.credentialConfigurationsSupported.lookup id with
      | some config => env.matchesFormat requestFormat config
      | none => false)

/-- Embedding of `getSignedCredentials`: compute the matching unissued
configurations (failing `CredentialRequestDenied` when none), resolve the
holder bindings, invoke the host mapping callback, fail when the chosen
configuration id is already issued or when the returned credential count
differs from the holder-binding count (both failures throw the same
count-mismatch message in the source), then dispatch to the
format-specific signer. -/
def getSignedCredentials (env : Env) (issuer : IssuerRecord) (session : Session)
    (requestFormat : RequestFormat) (proofSigners : List ProofSigner) :
    Except Err SignedCredentials :=
  let matchingIds := matchingConfigurationIds env issuer session requestFormat
  if matchingIds.isEmpty then
    .error .credentialRequestDenied
  else
    match getHolderBindingFromRequestProofs env proofSigners with
    | .error e => .error e
    | .ok holderBindings =>
      let signOptions := env.mapper
        { issuanceSession := session
          holderBindings := holderBindings
          credentialConfigurationIds := matchingIds
          requestFormat := requestFormat }
      if session.issuedCredentials.contains signOptions.credentialConfigurationId then
        .error (.mapperCredentialCountMismatch signOptions.credentials.length holderBindings.length)
      else if signOptions.credentials.length ≠ holderBindings.length then
        .error (.mapperCredentialCountMismatch signOptions.credentials.length holderBindings.length)
      else
        dispatchSigning env requestFormat signOptions

/-- Embedding of `createCredentialResponse`: assert the session state,
reject identifier-based addressing and unknown formats, fail `MissingProof`
with a fresh nonce when no proofs are present, transition to
`CredentialRequestReceived`, run the proof batch loop, sign through
`getSignedCredentials`, mint the response nonce, record the issued
configuration id and transition to `Completed` when the issued count
reaches the offered count and to `CredentialsPartiallyIssued` otherwise. -/
def createCredentialResponse (env : Env) (cfg : Config) (issuer : IssuerRecord)
    (now : Nat) (session : Session) (request : ParsedRequest) : Outcome :=
  if !credentialResponseAllowedStates.contains session.state then
    { session := session, events := [], result := .error .illegalSessionState }
  else if request.credentialIdentifier.isSome then
    { session := session, events := [], result := .error .invalidCredentialRequest }
  else
    match request.format with
    | none =>
      { session := session, events := [], result := .error .unsupportedCredentialFormat }
    | some requestFormat =>
      if request.proofJwts.isEmpty then
        { session := session, events := [],
          result := .error (.missingProof (createNonceJwt cfg issuer now) cfg.cNonceExpiresInSeconds) }
      else
        let (session1, ev1) := updateState session .credentialRequestReceived
        match processProofs env cfg issuer now request.proofJwts none with
        | .error e => { session := session1, events := [ev1], result := .error e }
        | .ok proofSigners =>
          match getSignedCredentials env issuer session1 requestFormat proofSigners with
          | .error e => { session := session1, events := [ev1], result := .error e }
          | .ok signed =>
            let cNonce := createNonceJwt cfg issuer now
            let response : CredentialResponse :=
              { credential :=
                  match request.proofsField with
                  | some (.single _) => signed.credentials.head?
                  | _ => none
                credentials :=
                  match request.proofsField with
                  | some (.batch _) => some signed.credentials
                  | _ => none
                cNonce := cNonce
                cNonceExpiresIn := cfg.cNonceExpiresInSeconds }
            let issued := session1.issuedCredentials ++ [signed.credentialConfigurationId]
            let newState :=
              if issued.length ≥ session1.credentialOfferPayload.length then
                SessionState.completed
              else
                SessionState.credentialsPartiallyIssued
            let (session2, ev2) := updateState { session1 with issuedCredentials := issued } newState
            { session := session2, events := [ev1, ev2], result := .ok response }

/-- Outcome of `createCredentialOffer` as far as the claims inspect it. -/
inductive OfferResult where
  | ok (session : Session) (events : List StateChangedEvent)
  | missingGrantConfig
  | duplicateOfferedCredential
deriving DecidableEq, Repr

/-- Embedding of `createCredentialOffer`: require at least one grant
config (this check runs first in the source), require the offered
configuration ids to be pairwise distinct (checked by comparing the
deduplicated length with the original length), then save a session in
`OfferCreated` with an empty issued list and emit one state-changed event
with a null previous state. -/
def createCredentialOffer (issuerId : String) (offeredCredentials : List String)
    (hasPreAuthorizedCodeFlowConfig : Bool) (hasAuthorizationCodeFlowConfig : Bool) :
    OfferResult :=
  if !hasPreAuthorizedCodeFlowConfig && !hasAuthorizationCodeFlowConfig then
    .missingGrantConfig
  else if offeredCredentials.dedup.length ≠ offeredCredentials.length then
    .duplicateOfferedCredential
  else
    .ok
      { issuerId := issuerId
        state := .offerCreated
        credentialOfferPayload := offeredCredentials
        issuedCredentials := []
        clientId := none }
      [{ previousState := none, newState := .offerCreated }]

/-- Concrete module configuration used by the concrete evaluations. -/
def cfg0 : Config := { baseUrl := "https://e", cNonceExpiresInSeconds := 60 }

/-- Concrete issuer record offering two SD-JWT credential configurations. -/
def issuerX : IssuerRecord :=
  { issuerId := "x", accessTokenPublicKeyFingerprint := "fpX",
    authorizationServerConfigs := none,
    credentialConfigurationsSupported :=
      [("c1", { format := "vc+sd-jwt" }), ("c2", { format := "vc+sd-jwt" })] }

/-- Concrete issuer record distinct from `issuerX`. -/
def issuerY : IssuerRecord :=
  { issuerId := "y", accessTokenPublicKeyFingerprint := "fpY",
    authorizationServerConfigs := none,
    credentialConfigurationsSupported := [] }

/-- Concrete SD-JWT request format. -/
def reqFmtSd : RequestFormat := { format := "vc+sd-jwt", vct := some "T", doctype := none }

/-- Concrete unsigned credential whose type claim matches `reqFmtSd`. -/
def credT : UnsignedCredential := { vct := some "T", docType := none, body := "b" }

/-- Concrete environment in which every proof token verifies and carries a
valid nonce minted at time 0, and the host mapper always chooses the given
configuration id with one matching SD-JWT payload. -/
def envFor (chosen : String) : Env :=
  { verifyProof := fun _ =>
      some { signer := .jwk "hk", nonce := some (createNonceJwt cfg0 issuerX 0) }
    resolveDid := fun _ => none
    matchesFormat := fun rf c => c.format == rf.format
    mapper := fun _ =>
      { credentialConfigurationId := chosen, format := .sdJwtVc, credentials := [credT] }
    signW3c := fun c => c.body
    signSdJwt := fun c => c.body
    signMdoc := fun c => c.body }

/-- Concrete environment in which proof verification itself fails. -/
def envProofFail : Env :=
  { envFor "c1" with verifyProof := fun _ => none }

/-- Concrete session for `issuerX` holding the two-credential offer, after
access-token creation and before any issuance. -/
def sessA : Session :=
  { issuerId := "x", state := .accessTokenCreated,
    credentialOfferPayload := ["c1", "c2"], issuedCredentials := [], clientId := none }

/-- Concrete session in which `c1` has already been issued. -/
def sessP : Session :=
  { issuerId := "x", state := .credentialsPartiallyIssued,
    credentialOfferPayload := ["c1", "c2"], issuedCredentials := ["c1"], clientId := none }

/-- Concrete request using the singular proof field. -/
def req1 : ParsedRequest :=
  { credentialIdentifier := none, format := some reqFmtSd, proofsField := some (.single "p1") }

/-- Concrete request using the batch proof field with a single token. -/
def reqB1 : ParsedRequest :=
  { credentialIdentifier := none, format := some reqFmtSd, proofsField := some (.batch ["p1"]) }

/-- Concrete request with no proof field at all. -/
def reqNoProof : ParsedRequest :=
  { credentialIdentifier := none, format := some reqFmtSd, proofsField := none }

/-- Characterisation of nonce acceptance used by the claim theorems. -/
theorem verifyNonce_eq_true_iff (cfg : Config) (issuer : IssuerRecord) (now : Nat)
    (jwt : NonceJwt) :
    verifyNonce cfg issuer now jwt = true ↔
      (jwt.iss = mkIssuerUrl cfg issuer.issuerId ∧ jwt.typ = "credo+cnonce" ∧
       jwt.sigFp = issuer.accessTokenPublicKeyFingerprint ∧ now < jwt.exp) := by
  simp only [verifyNonce, Bool.and_eq_true, beq_iff_eq, decide_eq_true_eq]
  tauto

/-- C5: `verifyNonce` accepts a nonce exactly when the payload issuer
equals the published issuer URL, the header type tag equals the fixed
value, the signature was produced by the key identified by the current
fingerprint, and the payload is unexpired; consequently a nonce minted for
an issuer with a different published URL fails verification, and a nonce
minted before `rotateAccessTokenSigningKey` replaced the fingerprint fails
verification afterwards. -/
theorem C5_verifyNonce_correct :
    (∀ (cfg : Config) (issuer : IssuerRecord) (now : Nat) (jwt : NonceJwt),
      verifyNonce cfg issuer now jwt = true ↔
        (jwt.iss = mkIssuerUrl cfg issuer.issuerId ∧ jwt.typ = "credo+cnonce" ∧
         jwt.sigFp = issuer.accessTokenPublicKeyFingerprint ∧ now < jwt.exp)) ∧
    (∀ (cfg : Config) (issuerA issuerB : IssuerRecord) (mintTime checkTime : Nat),
      mkIssuerUrl cfg issuerA.issuerId ≠ mkIssuerUrl cfg issuerB.issuerId →
      verifyNonce cfg issuerB checkTime (createNonceJwt cfg issuerA mintTime) = false) ∧
    (∀ (cfg : Config) (issuer : IssuerRecord) (mintTime checkTime : Nat) (newFp : String),
      newFp ≠ issuer.accessTokenPublicKeyFingerprint →
      verifyNonce cfg (rotateAccessTokenSigningKey issuer newFp) checkTime
        (createNonceJwt cfg issuer mintTime) = false) := by
  refine ⟨verifyNonce_eq_true_iff, ?_, ?_⟩
  · intro cfg issuerA issuerB mintTime checkTime hUrl
    rw [Bool.eq_false_iff]
    intro hTrue
    exact hUrl ((verifyNonce_eq_true_iff cfg issuerB checkTime _).mp hTrue).1
  · intro cfg issuer mintTime checkTime newFp hFp
    rw [Bool.eq_false_iff]
    intro hTrue
    have h := ((verifyNonce_eq_true_iff cfg _ checkTime _).mp hTrue).2.2.1
    simp only [createNonceJwt, rotateAccessTokenSigningKey] at h
    exact hFp h.symm

/-- Witness for C5: a nonce minted by `issuerX` fails against `issuerY`,
and fails against `issuerX` after its key fingerprint is rotated. -/
theorem C5_verifyNonce_correct_witness :
    verifyNonce cfg0 issuerY 5 (createNonceJwt cfg0 issuerX 0) = false ∧
    verifyNonce cfg0 (rotateAccessTokenSigningKey issuerX "fp2") 5
      (createNonceJwt cfg0 issuerX 0) = false :=
  ⟨C5_verifyNonce_correct.2.1 cfg0 issuerX issuerY 0 5 (by decide),
   C5_verifyNonce_correct.2.2 cfg0 issuerX 0 5 "fp2" (by decide)⟩

/-- C10: the published credential-issuer document carries the
`authorization_servers` field exactly when the issuer record holds at
least one external authorization-server config, listing the external
issuers followed by the issuer's own URL; with no external configs the
field is omitted; and the returned descriptor list always begins with the
self-issued authorization-server descriptor. -/
theorem C10_getIssuerMetadata_authorizationServers :
    ∀ (cfg : Config) (issuer : IssuerRecord) (fetchExternal : Bool),
      (∀ configs, issuer.authorizationServerConfigs = some configs → configs ≠ [] →
        (getIssuerMetadata cfg issuer fetchExternal).authorizationServersField =
          some (configs ++ [mkIssuerUrl cfg issuer.issuerId])) ∧
      ((issuer.authorizationServerConfigs = none ∨
        issuer.authorizationServerConfigs = some []) →
        (getIssuerMetadata cfg issuer fetchExternal).authorizationServersField = none) ∧
      (getIssuerMetadata cfg issuer fetchExternal).authorizationServerDescriptors.head? =
        some (mkIssuerUrl cfg issuer.issuerId) := by
  intro cfg issuer fetchExternal
  refine ⟨?_, ?_, ?_⟩
  · intro configs hEq hNe
    simp only [getIssuerMetadata, hEq]
    rw [if_pos]
    exact List.length_pos.mpr hNe
  · intro h
    rcases h with h | h <;> simp [getIssuerMetadata, h]
  · simp [getIssuerMetadata]

/-- Witness for C10: the field is populated for an issuer with one
external authorization server and omitted for `issuerX`. -/
theorem C10_getIssuerMetadata_authorizationServers_witness :
    (getIssuerMetadata cfg0
        { issuerX with authorizationServerConfigs := some ["https://as"] }
        false).authorizationServersField = some ["https://as", "https://e/x"] ∧
    (getIssuerMetadata cfg0 issuerX false).authorizationServersField = none := by
  refine ⟨?_, ?_⟩
  · have h := (C10_getIssuerMetadata_authorizationServers cfg0
      { issuerX with authorizationServerConfigs := some ["https://as"] } false).1
      ["https://as"] rfl (by decide)
    simpa using h
  · exact (C10_getIssuerMetadata_authorizationServers cfg0 issuerX false).2.1 (Or.inl rfl)

/-- Concrete session in a disallowed state for `createCredentialResponse`. -/
def sessCompleted : Session := { sessA with state := .completed }

/-- C6: for every session whose state is outside the allowed set,
`createCredentialResponse` returns `IllegalSessionState` with the session
untouched, no event emitted, no nonce minted and nothing signed (the
returned outcome is exactly the input session with an empty event list). -/
theorem C6_assertState_rejects (env : Env) (cfg : Config) (issuer : IssuerRecord)
    (now : Nat) (session : Session) (request : ParsedRequest)
    (h : session.state ∉ credentialResponseAllowedStates) :
    createCredentialResponse env cfg issuer now session request =
      { session := session, events := [], result := .error .illegalSessionState } := by
  obtain ⟨iid, st, offer, issued, cid⟩ := session
  cases st <;>
    first
      | rfl
      | (exact absurd (by simp [credentialResponseAllowedStates]) h)

/-- Witness for C6: a session in state `Completed` is rejected outright. -/
theorem C6_assertState_rejects_witness :
    createCredentialResponse (envFor "c1") cfg0 issuerX 0 sessCompleted req1 =
      { session := sessCompleted, events := [], result := .error .illegalSessionState } :=
  C6_assertState_rejects (envFor "c1") cfg0 issuerX 0 sessCompleted req1 (by decide)

/-- Counterexample to C1: with a host mapper that returns the
configuration id `cx`, which is not among the offered ids, a successful
`createCredentialResponse` records `cx` in `issuedCredentials`, so the
persisted session violates `issuedCredentials ⊆ offer.configurationIds`. -/
theorem C1_counterexample :
    "cx" ∈ (createCredentialResponse (envFor "cx") cfg0 issuerX 0 sessA req1).session.issuedCredentials ∧
    "cx" ∉ (createCredentialResponse (envFor "cx") cfg0 issuerX 0 sessA req1).session.credentialOfferPayload := by
  decide

/-- Counterexample to C2: issuing the out-of-offer ids `cx` and `cy` in a
session offering `c1` and `c2` drives the issued count to the offered
count, so the second successful response transitions the session to
`Completed` although the offered id `c1` was never issued. -/
theorem C2_counterexample :
    (createCredentialResponse (envFor "cy") cfg0 issuerX 0
      (createCredentialResponse (envFor "cx") cfg0 issuerX 0 sessA req1).session
      req1).session.state = SessionState.completed ∧
    "c1" ∈ (createCredentialResponse (envFor "cy") cfg0 issuerX 0
      (createCredentialResponse (envFor "cx") cfg0 issuerX 0 sessA req1).session
      req1).session.credentialOfferPayload ∧
    "c1" ∉ (createCredentialResponse (envFor "cy") cfg0 issuerX 0
      (createCredentialResponse (envFor "cx") cfg0 issuerX 0 sessA req1).session
      req1).session.issuedCredentials := by
  decide

/-- C7 evaluated at the failing input: when the host mapper chooses the
already-issued id `c1`, the call aborts with nothing recorded and the
session left at `CredentialRequestReceived`, but the error it raises is
the mapper-count-mismatch `CredoError` message, here reporting the
nonsensical count pair 1 against 1, instead of an already-issued error. -/
theorem C7_alreadyIssued_raises_count_mismatch_error :
    (createCredentialResponse (envFor "c1") cfg0 issuerX 0 sessP req1).result =
      .error (.mapperCredentialCountMismatch 1 1) ∧
    (createCredentialResponse (envFor "c1") cfg0 issuerX 0 sessP req1).session.issuedCredentials = ["c1"] ∧
    (createCredentialResponse (envFor "c1") cfg0 issuerX 0 sessP req1).session.state =
      SessionState.credentialRequestReceived := by
  decide

/-- Counterexample to C8: a duplicated offered id together with no grant
config fails with the missing-grant-config error, not the duplicate
error, because the grant-config check runs first. -/
theorem C8_counterexample :
    createCredentialOffer "x" ["a", "a"] false false = OfferResult.missingGrantConfig ∧
    ¬ (["a", "a"] : List String).Nodup := by
  refine ⟨rfl, by decide⟩

/-- Deduplicated length agrees with the length exactly on duplicate-free
lists. -/
theorem dedup_length_eq_iff_nodup {α : Type} [DecidableEq α] (l : List α) :
    l.dedup.length = l.length ↔ l.Nodup := by
  constructor
  · intro h
    rw [← List.dedup_eq_self]
    exact (List.dedup_sublist l).eq_of_length h
  · intro h
    rw [List.dedup_eq_self.mpr h]

/-- C8 as amended: with no grant config the offer fails
`MissingGrantConfig` (this check precedes the duplicate check); with at
least one grant config, a duplicated offered id fails
`DuplicateOfferedCredential`, and otherwise a session is saved in
`OfferCreated` with an empty issued list and exactly one state-changed
event whose previous state is null. -/
theorem C8_createCredentialOffer_amended (issuerId : String) (offered : List String)
    (hasPreAuth hasAuthCode : Bool) :
    (hasPreAuth = false → hasAuthCode = false →
      createCredentialOffer issuerId offered hasPreAuth hasAuthCode = .missingGrantConfig) ∧
    ((hasPreAuth = true ∨ hasAuthCode = true) →
      (¬ offered.Nodup →
        createCredentialOffer issuerId offered hasPreAuth hasAuthCode = .duplicateOfferedCredential) ∧
      (offered.Nodup →
        createCredentialOffer issuerId offered hasPreAuth hasAuthCode =
          .ok
            { issuerId := issuerId, state := .offerCreated, credentialOfferPayload := offered,
              issuedCredentials := [], clientId := none }
            [{ previousState := none, newState := .offerCreated }])) := by
  constructor
  · rintro rfl rfl
    rfl
  · intro hGrant
    constructor
    · intro hDup
      have hLen : offered.dedup.length ≠ offered.length := fun hl =>
        hDup ((dedup_length_eq_iff_nodup offered).mp hl)
      rcases hGrant with rfl | rfl <;> simp [createCredentialOffer, hLen]
    · intro hNodup
      have hLen : offered.dedup.length = offered.length :=
        (dedup_length_eq_iff_nodup offered).mpr hNodup
      rcases hGrant with rfl | rfl <;> simp [createCredentialOffer, hLen]

/-- Witness for the amended C8: a duplicated offer with a pre-authorized
grant config fails with the duplicate error, and a well-formed offer
succeeds in `OfferCreated` with one creation event. -/
theorem C8_createCredentialOffer_amended_witness :
    createCredentialOffer "x" ["a", "a"] true false = .duplicateOfferedCredential ∧
    createCredentialOffer "x" ["a", "b"] true false =
      .ok
        { issuerId := "x", state := .offerCreated, credentialOfferPayload := ["a", "b"],
          issuedCredentials := [], clientId := none }
        [{ previousState := none, newState := .offerCreated }] :=
  ⟨((C8_createCredentialOffer_amended "x" ["a", "a"] true false).2 (Or.inl rfl)).1 (by decide),
   ((C8_createCredentialOffer_amended "x" ["a", "b"] true false).2 (Or.inl rfl)).2 (by decide)⟩

/-- Counterexample to C9: a request whose batch proof field carries
exactly one proof receives the credential in the plural `credentials`
array with the singular field absent, although it carried one proof. -/
theorem C9_counterexample :
    (createCredentialResponse (envFor "c1") cfg0 issuerX 0 sessA reqB1).result =
      .ok { credential := none, credentials := some ["b"],
            cNonce := createNonceJwt cfg0 issuerX 0, cNonceExpiresIn := 60 } ∧
    reqB1.proofJwts.length = 1 := by
  decide

/-- C3: for every credential request carrying at least one proof and a
supported format (and no identifier-based addressing), the session is
transitioned to `CredentialRequestReceived` before any proof is validated
(the first emitted event records that transition regardless of the
environment), and every subsequent failure leaves the persisted session in
state `CredentialRequestReceived` with `issuedCredentials` unchanged; a
request with no proofs fails with `MissingProof` before this transition,
leaving the session exactly as it was with no event emitted. -/
theorem C3_transition_before_validation (env : Env) (cfg : Config) (issuer : IssuerRecord)
    (now : Nat) (session : Session) (request : ParsedRequest) (fmt : RequestFormat)
    (hState : session.state ∈ credentialResponseAllowedStates)
    (hId : request.credentialIdentifier = none)
    (hFmt : request.format = some fmt) :
    (request.proofJwts ≠ [] →
      (createCredentialResponse env cfg issuer now session request).events.head? =
        some { previousState := some session.state, newState := .credentialRequestReceived } ∧
      ∀ e, (createCredentialResponse env cfg issuer now session request).result = .error e →
        (createCredentialResponse env cfg issuer now session request).session.state =
          SessionState.credentialRequestReceived ∧
        (createCredentialResponse env cfg issuer now session request).session.issuedCredentials =
          session.issuedCredentials) ∧
    (request.proofJwts = [] →
      createCredentialResponse env cfg issuer now session request =
        { session := session, events := [],
          result := .error (.missingProof (createNonceJwt cfg issuer now)
            cfg.cNonceExpiresInSeconds) }) := by
  have hContains : credentialResponseAllowedStates.contains session.state = true :=
    List.elem_iff.mpr hState
  constructor
  · intro hNe
    have hEmpty : request.proofJwts.isEmpty = false := by
      cases hL : request.proofJwts with
      | nil => exact absurd hL hNe
      | cons a l => rfl
    obtain ⟨iid, st, offer, issued, cid⟩ := session
    simp only [createCredentialResponse, hContains, hId, hFmt, hEmpty, Bool.not_true,
      Option.isSome_none, Bool.false_eq_true, if_false, Bool.not_false, if_true]
    cases hP : processProofs env cfg issuer now request.proofJwts none with
    | error e => simp [updateState]
    | ok signers =>
      cases hS : getSignedCredentials env issuer
          { issuerId := iid, state := SessionState.credentialRequestReceived,
            credentialOfferPayload := offer, issuedCredentials := issued, clientId := cid }
          fmt signers with
      | error e => simp [hS, updateState]
      | ok signed => simp [hS, updateState]
  · intro hNil
    have hEmpty : request.proofJwts.isEmpty = true := by rw [hNil]; rfl
    simp only [createCredentialResponse, hContains, hId, hFmt, hEmpty, Bool.not_true,
      Option.isSome_none, Bool.false_eq_true, if_false, Bool.not_false, if_true]

/-- Witness for C3: with failing proof verification the session is left
persisted at `CredentialRequestReceived` with nothing issued. -/
theorem C3_transition_before_validation_witness :
    (createCredentialResponse envProofFail cfg0 issuerX 0 sessA req1).session.state =
      SessionState.credentialRequestReceived ∧
    (createCredentialResponse envProofFail cfg0 issuerX 0 sessA req1).session.issuedCredentials =
      [] := by
  have h := ((C3_transition_before_validation envProofFail cfg0 issuerX 0 sessA req1 reqFmtSd
    (by decide) rfl rfl).1 (by decide)).2 Err.proofVerificationFailed (by decide)
  exact ⟨h.1, h.2⟩

/-- Nonce payload attached to a proof-related protocol error. -/
def Err.proofRelatedNonce : Err → Option (NonceJwt × Nat)
  | .missingProof n t => some (n, t)
  | .missingNonceInProof n t => some (n, t)
  | .inconsistentNonce n t => some (n, t)
  | .invalidNonce n t => some (n, t)
  | _ => none

/-- Every proof-related error raised inside the proof batch loop carries
the nonce freshly minted by `createNonce` at the time of failure together
with the configured lifetime. -/
theorem processProofs_error_fresh (env : Env) (cfg : Config) (issuer : IssuerRecord)
    (now : Nat) :
    ∀ (jwts : List String) (prev : Option NonceJwt) (e : Err) (p : NonceJwt × Nat),
      processProofs env cfg issuer now jwts prev = .error e →
      e.proofRelatedNonce = some p →
      p = (createNonceJwt cfg issuer now, cfg.cNonceExpiresInSeconds) := by
  intro jwts
  induction jwts with
  | nil => intro prev e p h hp; simp [processProofs] at h
  | cons jwt rest ih =>
    intro prev e p h hp
    simp only [processProofs] at h
    split at h
    · simp only [Except.error.injEq] at h
      subst h
      simp [Err.proofRelatedNonce] at hp
    · split at h
      · simp only [Except.error.injEq] at h
        subst h
        simp only [Err.proofRelatedNonce, Option.some.injEq] at hp
        exact hp.symm
      · split at h
        · simp only [Except.error.injEq] at h
          subst h
          simp only [Err.proofRelatedNonce, Option.some.injEq] at hp
          exact hp.symm
        · split at h
          · simp only [Except.error.injEq] at h
            subst h
            simp only [Err.proofRelatedNonce, Option.some.injEq] at hp
            exact hp.symm
          · cases hr : processProofs env cfg issuer now rest _ with
            | error e2 =>
              rw [hr] at h
              simp only [Except.map, Except.error.injEq] at h
              subst h
              exact ih _ e2 p hr hp
            | ok s =>
              rw [hr] at h
              simp [Except.map] at h

/-- The proof batch loop extracts exactly one signer per submitted proof. -/
theorem processProofs_ok_length (env : Env) (cfg : Config) (issuer : IssuerRecord)
    (now : Nat) :
    ∀ (jwts : List String) (prev : Option NonceJwt) (signers : List ProofSigner),
      processProofs env cfg issuer now jwts prev = .ok signers →
      signers.length = jwts.length := by
  intro jwts
  induction jwts with
  | nil =>
    intro prev signers h
    simp only [processProofs, Except.ok.injEq] at h
    subst h
    rfl
  | cons jwt rest ih =>
    intro prev signers h
    simp only [processProofs] at h
    split at h
    · simp at h
    · split at h
      · simp at h
      · split at h
        · simp at h
        · split at h
          · simp at h
          · cases hr : processProofs env cfg issuer now rest _ with
            | error e2 => rw [hr] at h; simp [Except.map] at h
            | ok s =>
              rw [hr] at h
              simp only [Except.map, Except.ok.injEq] at h
              subst h
              simp [ih _ s hr]

/-- Holder binding resolution fails only with the unsupported-method or
DID-resolution errors, neither of which is proof-related. -/
theorem getHolderBindingFromRequestProofs_error (env : Env) :
    ∀ (signers : List ProofSigner) (e : Err),
      getHolderBindingFromRequestProofs env signers = .error e →
      e = .unsupportedHolderBindingMethod ∨ e = .didResolutionFailed := by
  intro signers
  induction signers with
  | nil => intro e h; simp [getHolderBindingFromRequestProofs] at h
  | cons signer rest ih =>
    intro e h
    cases signer with
    | custom =>
      simp only [getHolderBindingFromRequestProofs, Except.error.injEq] at h
      exact Or.inl h.symm
    | x5c =>
      simp only [getHolderBindingFromRequestProofs, Except.error.injEq] at h
      exact Or.inl h.symm
    | jwk fp =>
      simp only [getHolderBindingFromRequestProofs] at h
      cases hr : getHolderBindingFromRequestProofs env rest with
      | error e2 =>
        rw [hr] at h
        simp only [Except.map, Except.error.injEq] at h
        subst h
        exact ih e2 hr
      | ok bs => rw [hr] at h; simp [Except.map] at h
    | did url =>
      simp only [getHolderBindingFromRequestProofs] at h
      split at h
      · simp only [Except.error.injEq] at h
        exact Or.inr h.symm
      · cases hr : getHolderBindingFromRequestProofs env rest with
        | error e2 =>
          rw [hr] at h
          simp only [Except.map, Except.error.injEq] at h
          subst h
          exact ih e2 hr
        | ok bs => rw [hr] at h; simp [Except.map] at h

/-- Holder binding resolution yields exactly one binding per signer. -/
theorem getHolderBindingFromRequestProofs_ok_length (env : Env) :
    ∀ (signers : List ProofSigner) (bindings : List HolderBinding),
      getHolderBindingFromRequestProofs env signers = .ok bindings →
      bindings.length = signers.length := by
  intro signers
  induction signers with
  | nil =>
    intro bindings h
    simp only [getHolderBindingFromRequestProofs, Except.ok.injEq] at h
    subst h
    rfl
  | cons signer rest ih =>
    intro bindings h
    cases signer with
    | custom => simp [getHolderBindingFromRequestProofs] at h
    | x5c => simp [getHolderBindingFromRequestProofs] at h
    | jwk fp =>
      simp only [getHolderBindingFromRequestProofs] at h
      cases hr : getHolderBindingFromRequestProofs env rest with
      | error e2 => rw [hr] at h; simp [Except.map] at h
      | ok bs =>
        rw [hr] at h
        simp only [Except.map, Except.ok.injEq] at h
        subst h
        simp [ih bs hr]
    | did url =>
      simp only [getHolderBindingFromRequestProofs] at h
      split at h
      · simp at h
      · cases hr : getHolderBindingFromRequestProofs env rest with
        | error e2 => rw [hr] at h; simp [Except.map] at h
        | ok bs =>
          rw [hr] at h
          simp only [Except.map, Except.ok.injEq] at h
          subst h
          simp [ih bs hr]

/-- The signing dispatcher fails only with format, type-claim or
document-type mismatches, none of which is proof-related. -/
theorem dispatchSigning_error (env : Env) (requestFormat : RequestFormat)
    (signOptions : SignOptions) (e : Err)
    (h : dispatchSigning env requestFormat signOptions = .error e) :
    e = .signOptionsFormatMismatch ∨ e = .vctMismatch ∨ e = .doctypeMismatch := by
  cases hf : signOptions.format <;>
    simp only [dispatchSigning, hf] at h <;>
    (repeat' split at h) <;>
    first
      | (simp only [Except.error.injEq] at h; subst h; simp)
      | simp at h

/-- A successful dispatch returns the mapper's chosen configuration id
and one encoded credential per unsigned payload. -/
theorem dispatchSigning_ok (env : Env) (requestFormat : RequestFormat)
    (signOptions : SignOptions) (signed : SignedCredentials)
    (h : dispatchSigning env requestFormat signOptions = .ok signed) :
    signed.credentialConfigurationId = signOptions.credentialConfigurationId ∧
    signed.credentials.length = signOptions.credentials.length := by
  cases hf : signOptions.format <;>
    simp only [dispatchSigning, hf] at h <;>
    (repeat' split at h) <;>
    first
      | (simp only [Except.ok.injEq] at h; subst h; simp)
      | simp at h

/-- No error escaping `getSignedCredentials` is proof-related, so no
nonce payload is attached at that stage. -/
theorem getSignedCredentials_error_nonce (env : Env) (issuer : IssuerRecord)
    (session : Session) (fmt : RequestFormat) (signers : List ProofSigner) (e : Err)
    (h : getSignedCredentials env issuer session fmt signers = .error e) :
    e.proofRelatedNonce = none := by
  simp only [getSignedCredentials] at h
  split at h
  · simp only [Except.error.injEq] at h
    subst h
    rfl
  · split at h
    · rename_i e2 heq
      simp only [Except.error.injEq] at h
      subst h
      rcases getHolderBindingFromRequestProofs_error env signers e2 heq with rfl | rfl <;> rfl
    · split at h
      · simp only [Except.error.injEq] at h
        subst h
        rfl
      · split at h
        · simp only [Except.error.injEq] at h
          subst h
          rfl
        · rcases dispatchSigning_error env fmt _ e h with rfl | rfl | rfl <;> rfl

/-- Successful signing implies: holder bindings resolved, the returned
configuration id is the one chosen by the host mapper, that id was not
yet issued, the matching set was non-empty, and one credential was
produced per holder binding. -/
theorem getSignedCredentials_ok_elim (env : Env) (issuer : IssuerRecord)
    (session : Session) (fmt : RequestFormat) (signers : List ProofSigner)
    (signed : SignedCredentials)
    (h : getSignedCredentials env issuer session fmt signers = .ok signed) :
    ∃ bindings,
      getHolderBindingFromRequestProofs env signers = .ok bindings ∧
      signed.credentialConfigurationId =
        (env.mapper
          { issuanceSession := session
            holderBindings := bindings
            credentialConfigurationIds := matchingConfigurationIds env issuer session fmt
            requestFormat := fmt }).credentialConfigurationId ∧
      signed.credentialConfigurationId ∉ session.issuedCredentials ∧
      matchingConfigurationIds env issuer session fmt ≠ [] ∧
      signed.credentials.length = bindings.length := by
  simp only [getSignedCredentials] at h
  split at h
  · simp at h
  · rename_i hne
    split at h
    · simp at h
    · rename_i bindings heq
      split at h
      · simp at h
      · rename_i hcont
        split at h
        · simp at h
        · rename_i hlen
          have hd := dispatchSigning_ok env fmt _ signed h
          refine ⟨bindings, heq, hd.1, ?_, ?_, ?_⟩
          · intro hm
            rw [hd.1] at hm
            exact hcont (List.elem_iff.mpr hm)
          · intro hnil
            rw [hnil] at hne
            exact hne rfl
          · rw [hd.2]
            exact not_ne_iff.mp hlen

/-- Characterisation of a successful `createCredentialResponse`: the
request passed every guard, the proof batch and signing succeeded, and the
outcome is exactly the transition-and-respond record of step 10 to 12. -/
theorem createCredentialResponse_ok_elim (env : Env) (cfg : Config) (issuer : IssuerRecord)
    (now : Nat) (session : Session) (request : ParsedRequest) (r : CredentialResponse)
    (h : (createCredentialResponse env cfg issuer now session request).result = .ok r) :
    ∃ fmt signers signed,
      request.credentialIdentifier = none ∧
      request.format = some fmt ∧
      request.proofJwts ≠ [] ∧
      processProofs env cfg issuer now request.proofJwts none = .ok signers ∧
      getSignedCredentials env issuer { session with state := .credentialRequestReceived }
        fmt signers = .ok signed ∧
      createCredentialResponse env cfg issuer now session request =
        { session :=
            { session with
              state :=
                if session.credentialOfferPayload.length ≤ session.issuedCredentials.length + 1
                then .completed else .credentialsPartiallyIssued
              issuedCredentials :=
                session.issuedCredentials ++ [signed.credentialConfigurationId] }
          events :=
            [{ previousState := some session.state, newState := .credentialRequestReceived },
             { previousState := some .credentialRequestReceived,
               newState :=
                 if session.credentialOfferPayload.length ≤ session.issuedCredentials.length + 1
                 then .completed else .credentialsPartiallyIssued }]
          result := .ok
            { credential :=
                match request.proofsField with
                | some (.single _) => signed.credentials.head?
                | _ => none
              credentials :=
                match request.proofsField with
                | some (.batch _) => some signed.credentials
                | _ => none
              cNonce := createNonceJwt cfg issuer now
              cNonceExpiresIn := cfg.cNonceExpiresInSeconds } } := by
  obtain ⟨iid, st, offer, issued, cid⟩ := session
  simp only [createCredentialResponse, updateState] at h
  split at h
  case isTrue => simp at h
  case isFalse hg1 =>
    split at h
    case isTrue => simp at h
    case isFalse hg2 =>
      split at h
      case h_1 => simp at h
      case h_2 fmt heqFmt =>
        split at h
        case isTrue => simp at h
        case isFalse hg3 =>
          cases hP : processProofs env cfg issuer now request.proofJwts none with
          | error e => simp only [hP] at h; simp at h
          | ok signers =>
            simp only [hP] at h
            cases hS : getSignedCredentials env issuer
                { issuerId := iid, state := .credentialRequestReceived,
                  credentialOfferPayload := offer, issuedCredentials := issued,
                  clientId := cid } fmt signers with
            | error e => simp only [hS] at h; simp at h
            | ok signed =>
              have hcont : credentialResponseAllowedStates.contains st = true := by
                cases hx : credentialResponseAllowedStates.contains st with
                | true => rfl
                | false => exact absurd (by rw [hx]; rfl) hg1
              have hid : request.credentialIdentifier = none := by
                cases hx : request.credentialIdentifier with
                | none => rfl
                | some v => rw [hx] at hg2; simp at hg2
              have hne : request.proofJwts.isEmpty = false := by
                cases hx : request.proofJwts.isEmpty with
                | false => rfl
                | true => exact absurd hx hg3
              refine ⟨fmt, signers, signed, hid, heqFmt, ?_, rfl, hS, ?_⟩
              · intro hnil
                rw [hnil] at hne
                simp at hne
              · simp only [createCredentialResponse, hcont, hid, heqFmt, hne, Bool.not_true,
                  Option.isSome_none, Bool.false_eq_true, if_false, Bool.not_false, if_true,
                  hP, hS]
                simp [updateState, hS]

/-- The session a `createCredentialResponse` invocation persists is the
input session untouched (pre-transition failure), the input session moved
to `CredentialRequestReceived` (post-transition failure), or the
fully-issued session of a successful run. -/
theorem createCredentialResponse_session_cases (env : Env) (cfg : Config)
    (issuer : IssuerRecord) (now : Nat) (session : Session) (request : ParsedRequest) :
    (createCredentialResponse env cfg issuer now session request).session = session ∨
    (createCredentialResponse env cfg issuer now session request).session =
      { session with state := .credentialRequestReceived } ∨
    ∃ fmt signers signed,
      request.format = some fmt ∧
      processProofs env cfg issuer now request.proofJwts none = .ok signers ∧
      getSignedCredentials env issuer { session with state := .credentialRequestReceived }
        fmt signers = .ok signed ∧
      (createCredentialResponse env cfg issuer now session request).session =
        { session with
          state :=
            if session.credentialOfferPayload.length ≤ session.issuedCredentials.length + 1
            then .completed else .credentialsPartiallyIssued
          issuedCredentials :=
            session.issuedCredentials ++ [signed.credentialConfigurationId] } := by
  obtain ⟨iid, st, offer, issued, cid⟩ := session
  simp only [createCredentialResponse, updateState]
  split
  · exact Or.inl rfl
  · split
    · exact Or.inl rfl
    · split
      · exact Or.inl rfl
      · rename_i fmt heqFmt
        split
        · exact Or.inl rfl
        · cases hP : processProofs env cfg issuer now request.proofJwts none with
          | error e => right; left; simp
          | ok signers =>
            cases hS : getSignedCredentials env issuer
                { issuerId := iid, state := .credentialRequestReceived,
                  credentialOfferPayload := offer, issuedCredentials := issued,
                  clientId := cid } fmt signers with
            | error e => right; left; simp [hS]
            | ok signed =>
              refine Or.inr (Or.inr ⟨fmt, signers, signed, heqFmt, rfl, hS, ?_⟩)
              simp [hS]

/-- Every error escaping `createCredentialResponse` that carries a nonce
payload carries the nonce minted by `createNonce` at the failure time with
the configured lifetime. -/
theorem createCredentialResponse_error_fresh (env : Env) (cfg : Config)
    (issuer : IssuerRecord) (now : Nat) (session : Session) (request : ParsedRequest)
    (e : Err) (p : NonceJwt × Nat)
    (hRes : (createCredentialResponse env cfg issuer now session request).result = .error e)
    (hp : e.proofRelatedNonce = some p) :
    p = (createNonceJwt cfg issuer now, cfg.cNonceExpiresInSeconds) := by
  obtain ⟨iid, st, offer, issued, cid⟩ := session
  simp only [createCredentialResponse, updateState] at hRes
  split at hRes
  case isTrue =>
    simp only [Except.error.injEq] at hRes
    subst hRes
    simp [Err.proofRelatedNonce] at hp
  case isFalse =>
    split at hRes
    case isTrue =>
      simp only [Except.error.injEq] at hRes
      subst hRes
      simp [Err.proofRelatedNonce] at hp
    case isFalse =>
      split at hRes
      case h_1 =>
        simp only [Except.error.injEq] at hRes
        subst hRes
        simp [Err.proofRelatedNonce] at hp
      case h_2 fmt heqFmt =>
        split at hRes
        case isTrue =>
          simp only [Except.error.injEq] at hRes
          subst hRes
          simp only [Err.proofRelatedNonce, Option.some.injEq] at hp
          exact hp.symm
        case isFalse =>
          cases hP : processProofs env cfg issuer now request.proofJwts none with
          | error e2 =>
            simp only [hP] at hRes
            simp only [Except.error.injEq] at hRes
            subst hRes
            exact processProofs_error_fresh env cfg issuer now _ _ _ p hP hp
          | ok signers =>
            simp only [hP] at hRes
            cases hS : getSignedCredentials env issuer
                { issuerId := iid, state := .credentialRequestReceived,
                  credentialOfferPayload := offer, issuedCredentials := issued,
                  clientId := cid } fmt signers with
            | error e2 =>
              simp only [hS] at hRes
              simp only [Except.error.injEq] at hRes
              subst hRes
              rw [getSignedCredentials_error_nonce env issuer _ fmt signers _ hS] at hp
              cases hp
            | ok signed =>
              simp only [hS] at hRes
              simp at hRes

/-- C4: every proof-related failure of `createCredentialResponse` (missing
proofs, missing nonce claim, inconsistent nonce claims, nonce failing
verification) carries the corresponding error kind together with a nonce
freshly minted at failure time and its expiry; in particular a batch of
two proofs bound to different nonce claims, the first of which verifies,
fails with the inconsistent-nonce error and a fresh nonce attached. -/
theorem C4_proof_failures_fresh_nonce :
    (∀ (env : Env) (cfg : Config) (issuer : IssuerRecord) (now : Nat)
       (session : Session) (request : ParsedRequest) (e : Err) (p : NonceJwt × Nat),
      (createCredentialResponse env cfg issuer now session request).result = .error e →
      e.proofRelatedNonce = some p →
      p = (createNonceJwt cfg issuer now, cfg.cNonceExpiresInSeconds)) ∧
    (∀ (env : Env) (cfg : Config) (issuer : IssuerRecord) (now : Nat)
       (session : Session) (fmt : RequestFormat) (j1 j2 : String)
       (s1 s2 : ProofSigner) (n1 n2 : NonceJwt),
      session.state ∈ credentialResponseAllowedStates →
      env.verifyProof j1 = some { signer := s1, nonce := some n1 } →
      env.verifyProof j2 = some { signer := s2, nonce := some n2 } →
      n1 ≠ n2 →
      verifyNonce cfg issuer now n1 = true →
      (createCredentialResponse env cfg issuer now session
        { credentialIdentifier := none, format := some fmt,
          proofsField := some (.batch [j1, j2]) }).result =
        .error (.inconsistentNonce (createNonceJwt cfg issuer now)
          cfg.cNonceExpiresInSeconds)) := by
  constructor
  · exact createCredentialResponse_error_fresh
  · intro env cfg issuer now session fmt j1 j2 s1 s2 n1 n2 hState hv1 hv2 hne hver
    have hContains : credentialResponseAllowedStates.contains session.state = true :=
      List.elem_iff.mpr hState
    have hpp : processProofs env cfg issuer now [j1, j2] none =
        .error (.inconsistentNonce (createNonceJwt cfg issuer now)
          cfg.cNonceExpiresInSeconds) := by
      simp [processProofs, hv1, hv2, hver, hne, Except.map]
    obtain ⟨iid, st, offer, issued, cid⟩ := session
    simp only [createCredentialResponse, hContains, Bool.not_true, Bool.false_eq_true,
      if_false, updateState]
    simp [ParsedRequest.proofJwts, hpp]

/-- Concrete environment returning a different (valid at time 0 versus
time 1) nonce claim for the proofs `p1` and `p2`. -/
def envTwoNonces : Env :=
  { envFor "c1" with
    verifyProof := fun j =>
      if j = "p1" then
        some { signer := .jwk "hk", nonce := some (createNonceJwt cfg0 issuerX 0) }
      else
        some { signer := .jwk "hk", nonce := some (createNonceJwt cfg0 issuerX 1) } }

/-- Witness for C4: the concrete two-proof batch with differing nonce
claims is rejected with the inconsistent-nonce error carrying the nonce
minted at failure time. -/
theorem C4_proof_failures_fresh_nonce_witness :
    (createCredentialResponse envTwoNonces cfg0 issuerX 0 sessA
      { credentialIdentifier := none, format := some reqFmtSd,
        proofsField := some (.batch ["p1", "p2"]) }).result =
      .error (.inconsistentNonce (createNonceJwt cfg0 issuerX 0) 60) :=
  C4_proof_failures_fresh_nonce.2 envTwoNonces cfg0 issuerX 0 sessA reqFmtSd "p1" "p2"
    (.jwk "hk") (.jwk "hk") (createNonceJwt cfg0 issuerX 0) (createNonceJwt cfg0 issuerX 1)
    (by decide) (by decide) (by decide) (by decide) (by decide)

/-- Offered unissued matching configuration ids all come from the offer. -/
theorem matchingConfigurationIds_subset (env : Env) (issuer : IssuerRecord)
    (session : Session) (fmt : RequestFormat) :
    matchingConfigurationIds env issuer session fmt ⊆ session.credentialOfferPayload :=
  fun _ hx => List.filter_subset' _ (List.filter_subset' _ hx)

/-- Offered unissued matching configuration ids are not yet issued. -/
theorem matchingConfigurationIds_not_issued (env : Env) (issuer : IssuerRecord)
    (session : Session) (fmt : RequestFormat) (id : String)
    (h : id ∈ matchingConfigurationIds env issuer session fmt) :
    id ∉ session.issuedCredentials := by
  have h2 : id ∈ notIssuedConfigurationIds session := List.filter_subset' _ h
  simp only [notIssuedConfigurationIds, List.mem_filter] at h2
  intro hm
  have hc := h2.2
  rw [show session.issuedCredentials.contains id = true from List.elem_iff.mpr hm] at hc
  cases hc

/-- A duplicate-free list included in another list is no longer than it. -/
theorem nodup_subset_length_le {α : Type} [DecidableEq α] {l₁ l₂ : List α}
    (h₁ : l₁.Nodup) (hs : l₁ ⊆ l₂) : l₁.length ≤ l₂.length := by
  calc l₁.length = l₁.toFinset.card := (List.toFinset_card_of_nodup h₁).symm
    _ ≤ l₂.toFinset.card := Finset.card_le_card (by
        intro x hx
        rw [List.mem_toFinset] at *
        exact hs hx)
    _ ≤ l₂.length := List.toFinset_card_le l₂

/-- A session freshly created by `createCredentialOffer` satisfies the
issuance invariant: nothing issued yet. -/
theorem createCredentialOffer_ok_invariant (issuerId : String) (offered : List String)
    (hasPreAuth hasAuthCode : Bool) (session : Session) (events : List StateChangedEvent)
    (h : createCredentialOffer issuerId offered hasPreAuth hasAuthCode = .ok session events) :
    session.issuedCredentials ⊆ session.credentialOfferPayload ∧
    session.issuedCredentials.Nodup := by
  simp only [createCredentialOffer] at h
  split at h
  · cases h
  · split at h
    · cases h
    · simp only [OfferResult.ok.injEq] at h
      obtain ⟨hs, _⟩ := h
      subst hs
      exact ⟨by simp, by simp⟩

/-- When the host mapper only ever chooses among the matching
configuration ids it is offered, `createCredentialResponse` preserves the
issuance invariant; freedom from duplicates is preserved regardless,
because the already-issued guard blocks re-issuing a recorded id. -/
theorem createCredentialResponse_preserves_invariant (env : Env) (cfg : Config)
    (issuer : IssuerRecord) (now : Nat) (session : Session) (request : ParsedRequest)
    (hmap : ∀ inp : MapperInput, inp.credentialConfigurationIds ≠ [] →
      (env.mapper inp).credentialConfigurationId ∈ inp.credentialConfigurationIds)
    (hsub : session.issuedCredentials ⊆ session.credentialOfferPayload)
    (hnodup : session.issuedCredentials.Nodup) :
    (createCredentialResponse env cfg issuer now session request).session.credentialOfferPayload
      = session.credentialOfferPayload ∧
    (createCredentialResponse env cfg issuer now session request).session.issuedCredentials
      ⊆ (createCredentialResponse env cfg issuer now session request).session.credentialOfferPayload ∧
    (createCredentialResponse env cfg issuer now session request).session.issuedCredentials.Nodup := by
  rcases createCredentialResponse_session_cases env cfg issuer now session request with
    hcase | hcase | ⟨fmt, signers, signed, hfmt, hP, hS, hcase⟩
  · rw [hcase]; exact ⟨rfl, hsub, hnodup⟩
  · rw [hcase]; exact ⟨rfl, hsub, hnodup⟩
  · rw [hcase]
    obtain ⟨bindings, hb, hidEq, hnotIssued, hneIds, hlen⟩ :=
      getSignedCredentials_ok_elim _ _ _ _ _ _ hS
    have hchosen : signed.credentialConfigurationId ∈
        matchingConfigurationIds env issuer
          { session with state := .credentialRequestReceived } fmt := by
      rw [hidEq]; exact hmap _ hneIds
    have hchoOffer : signed.credentialConfigurationId ∈ session.credentialOfferPayload :=
      matchingConfigurationIds_subset env issuer _ fmt hchosen
    refine ⟨rfl, ?_, ?_⟩
    · intro x hx
      rcases List.mem_append.mp hx with hx1 | hx2
      · exact hsub hx1
      · rw [List.mem_singleton] at hx2
        subst hx2
        exact hchoOffer
    · rw [List.nodup_append]
      refine ⟨hnodup, List.nodup_singleton _, ?_⟩
      intro a ha hb2
      rw [List.mem_singleton] at hb2
      subst hb2
      exact hnotIssued ha

/-- C1 as amended: a session created by `createCredentialOffer` satisfies
`issuedCredentials ⊆ offer ∧ Nodup issuedCredentials`; every
`createCredentialResponse` invocation, under an arbitrary host mapping
callback, keeps the offer unchanged and preserves duplicate-freedom of
`issuedCredentials` (the already-issued guard blocks re-recording an id),
and additionally preserves `issuedCredentials ⊆ offer` provided the
mapping callback always returns one of the matching configuration ids
passed to it. -/
theorem C1_issuedCredentials_invariant_amended :
    (∀ (issuerId : String) (offered : List String) (hasPreAuth hasAuthCode : Bool)
       (session : Session) (events : List StateChangedEvent),
      createCredentialOffer issuerId offered hasPreAuth hasAuthCode = .ok session events →
      session.issuedCredentials ⊆ session.credentialOfferPayload ∧
      session.issuedCredentials.Nodup) ∧
    (∀ (env : Env) (cfg : Config) (issuer : IssuerRecord) (now : Nat)
       (session : Session) (request : ParsedRequest),
      session.issuedCredentials.Nodup →
      (createCredentialResponse env cfg issuer now session request).session.credentialOfferPayload
        = session.credentialOfferPayload ∧
      (createCredentialResponse env cfg issuer now session request).session.issuedCredentials.Nodup ∧
      ((∀ inp : MapperInput, inp.credentialConfigurationIds ≠ [] →
          (env.mapper inp).credentialConfigurationId ∈ inp.credentialConfigurationIds) →
        session.issuedCredentials ⊆ session.credentialOfferPayload →
        (createCredentialResponse env cfg issuer now session request).session.issuedCredentials
          ⊆ (createCredentialResponse env cfg issuer now session request).session.credentialOfferPayload)) := by
  refine ⟨createCredentialOffer_ok_invariant, ?_⟩
  intro env cfg issuer now session request hnodup
  rcases createCredentialResponse_session_cases env cfg issuer now session request with
    hcase | hcase | ⟨fmt, signers, signed, hfmt, hP, hS, hcase⟩
  · rw [hcase]
    exact ⟨rfl, hnodup, fun _ hsub => hsub⟩
  · rw [hcase]
    exact ⟨rfl, hnodup, fun _ hsub => hsub⟩
  · rw [hcase]
    obtain ⟨bindings, hb, hidEq, hnotIssued, hneIds, hlen⟩ :=
      getSignedCredentials_ok_elim _ _ _ _ _ _ hS
    refine ⟨rfl, ?_, ?_⟩
    · rw [List.nodup_append]
      refine ⟨hnodup, List.nodup_singleton _, ?_⟩
      intro a ha hb2
      rw [List.mem_singleton] at hb2
      subst hb2
      exact hnotIssued ha
    · intro hmap hsub
      have hchosen : signed.credentialConfigurationId ∈
          matchingConfigurationIds env issuer
            { session with state := .credentialRequestReceived } fmt := by
        rw [hidEq]; exact hmap _ hneIds
      have hchoOffer : signed.credentialConfigurationId ∈ session.credentialOfferPayload :=
        matchingConfigurationIds_subset env issuer _ fmt hchosen
      intro x hx
      rcases List.mem_append.mp hx with hx1 | hx2
      · exact hsub hx1
      · rw [List.mem_singleton] at hx2
        subst hx2
        exact hchoOffer

/-- Concrete environment whose mapper always picks the first matching
configuration id it is offered. -/
def envWellBehaved : Env :=
  { envFor "c1" with
    mapper := fun inp =>
      { credentialConfigurationId :=
          match inp.credentialConfigurationIds with
          | c :: _ => c
          | [] => "c1"
        format := .sdJwtVc
        credentials := [credT] } }

/-- Witness for the amended C1: duplicate-freedom is preserved even under
the misbehaving mapper that issues the out-of-offer id `cx`, and the
subset half holds under the well-behaved mapper. -/
theorem C1_issuedCredentials_invariant_amended_witness :
    (createCredentialResponse (envFor "cx") cfg0 issuerX 0 sessA req1).session.issuedCredentials.Nodup ∧
    (createCredentialResponse envWellBehaved cfg0 issuerX 0 sessA req1).session.issuedCredentials ⊆
      (createCredentialResponse envWellBehaved cfg0 issuerX 0 sessA req1).session.credentialOfferPayload := by
  constructor
  · exact (C1_issuedCredentials_invariant_amended.2 (envFor "cx") cfg0 issuerX 0 sessA req1
      (by simp [sessA])).2.1
  · have hm : ∀ inp : MapperInput, inp.credentialConfigurationIds ≠ [] →
        (envWellBehaved.mapper inp).credentialConfigurationId ∈ inp.credentialConfigurationIds := by
      intro inp hne
      cases hx : inp.credentialConfigurationIds with
      | nil => exact absurd hx hne
      | cons c t => simp [envWellBehaved, envFor, hx]
    exact (C1_issuedCredentials_invariant_amended.2 envWellBehaved cfg0 issuerX 0 sessA req1
      (by simp [sessA])).2.2 hm (by simp [sessA])

/-- C2 as amended: when `createCredentialResponse` succeeds on a session
satisfying the issuance invariant (with a duplicate-free offer) under a
mapper choosing among the matching ids, the chosen configuration id — an
offered id not yet issued — is appended to `issuedCredentials`, and the
new state is `Completed` exactly when every offered configuration id has
now been issued and `CredentialsPartiallyIssued` otherwise. -/
theorem C2_completion_amended (env : Env) (cfg : Config) (issuer : IssuerRecord)
    (now : Nat) (session : Session) (request : ParsedRequest) (r : CredentialResponse)
    (hmap : ∀ inp : MapperInput, inp.credentialConfigurationIds ≠ [] →
      (env.mapper inp).credentialConfigurationId ∈ inp.credentialConfigurationIds)
    (hsub : session.issuedCredentials ⊆ session.credentialOfferPayload)
    (hnodupI : session.issuedCredentials.Nodup)
    (hnodupO : session.credentialOfferPayload.Nodup)
    (hok : (createCredentialResponse env cfg issuer now session request).result = .ok r) :
    ∃ chosen,
      chosen ∈ session.credentialOfferPayload ∧
      chosen ∉ session.issuedCredentials ∧
      (createCredentialResponse env cfg issuer now session request).session.issuedCredentials =
        session.issuedCredentials ++ [chosen] ∧
      ((createCredentialResponse env cfg issuer now session request).session.state =
          SessionState.completed ↔
        ∀ id ∈ session.credentialOfferPayload,
          id ∈ session.issuedCredentials ++ [chosen]) ∧
      ((createCredentialResponse env cfg issuer now session request).session.state =
          SessionState.completed ∨
       (createCredentialResponse env cfg issuer now session request).session.state =
          SessionState.credentialsPartiallyIssued) := by
  obtain ⟨fmt, signers, signed, hid, hfmt, hne, hP, hS, houtcome⟩ :=
    createCredentialResponse_ok_elim env cfg issuer now session request r hok
  obtain ⟨bindings, hb, hidEq, hnotIssued, hneIds, hlen⟩ :=
    getSignedCredentials_ok_elim _ _ _ _ _ _ hS
  have hchosen : signed.credentialConfigurationId ∈
      matchingConfigurationIds env issuer
        { session with state := .credentialRequestReceived } fmt := by
    rw [hidEq]; exact hmap _ hneIds
  have hchoOffer : signed.credentialConfigurationId ∈ session.credentialOfferPayload :=
    matchingConfigurationIds_subset env issuer _ fmt hchosen
  refine ⟨signed.credentialConfigurationId, hchoOffer, hnotIssued, ?_, ?_, ?_⟩
  · rw [houtcome]
  · rw [houtcome]
    have hsub' : session.issuedCredentials ++ [signed.credentialConfigurationId] ⊆
        session.credentialOfferPayload := by
      intro x hx
      rcases List.mem_append.mp hx with hx1 | hx2
      · exact hsub hx1
      · rw [List.mem_singleton] at hx2
        subst hx2
        exact hchoOffer
    have hnodup' : (session.issuedCredentials ++ [signed.credentialConfigurationId]).Nodup := by
      rw [List.nodup_append]
      refine ⟨hnodupI, List.nodup_singleton _, ?_⟩
      intro a ha hb2
      rw [List.mem_singleton] at hb2
      subst hb2
      exact hnotIssued ha
    by_cases hcond : session.credentialOfferPayload.length ≤ session.issuedCredentials.length + 1
    · rw [if_pos hcond]
      constructor
      · intro _ id hidm
        have hcardO : session.credentialOfferPayload.toFinset.card =
            session.credentialOfferPayload.length := List.toFinset_card_of_nodup hnodupO
        have hcardI : (session.issuedCredentials ++
            [signed.credentialConfigurationId]).toFinset.card =
            (session.issuedCredentials ++ [signed.credentialConfigurationId]).length :=
          List.toFinset_card_of_nodup hnodup'
        have hfinsub : (session.issuedCredentials ++
            [signed.credentialConfigurationId]).toFinset ⊆
            session.credentialOfferPayload.toFinset := by
          intro x hx
          rw [List.mem_toFinset] at *
          exact hsub' hx
        have hfineq := Finset.eq_of_subset_of_card_le hfinsub (by
          rw [hcardO, hcardI]
          simpa using hcond)
        have hmem : id ∈ (session.issuedCredentials ++
            [signed.credentialConfigurationId]).toFinset := by
          rw [hfineq, List.mem_toFinset]
          exact hidm
        rw [List.mem_toFinset] at hmem
        exact hmem
      · intro _
        rfl
    · rw [if_neg hcond]
      constructor
      · intro habs
        cases habs
      · intro hall
        exfalso
        apply hcond
        have hso : session.credentialOfferPayload ⊆
            session.issuedCredentials ++ [signed.credentialConfigurationId] :=
          fun x hx => hall x hx
        have hle := nodup_subset_length_le hnodupO hso
        simpa using hle
  · rw [houtcome]
    by_cases hcond : session.credentialOfferPayload.length ≤ session.issuedCredentials.length + 1
    · left; rw [if_pos hcond]
    · right; rw [if_neg hcond]

/-- Witness for the amended C2: the first issuance out of a two-credential
offer ends in `Completed` or `CredentialsPartiallyIssued` (here the
latter). -/
theorem C2_completion_amended_witness :
    (createCredentialResponse envWellBehaved cfg0 issuerX 0 sessA req1).session.state =
        SessionState.completed ∨
    (createCredentialResponse envWellBehaved cfg0 issuerX 0 sessA req1).session.state =
        SessionState.credentialsPartiallyIssued := by
  have hm : ∀ inp : MapperInput, inp.credentialConfigurationIds ≠ [] →
      (envWellBehaved.mapper inp).credentialConfigurationId ∈ inp.credentialConfigurationIds := by
    intro inp hne
    cases hx : inp.credentialConfigurationIds with
    | nil => exact absurd hx hne
    | cons c t => simp [envWellBehaved, envFor, hx]
  obtain ⟨c, h1, h2, h3, h4, h5⟩ := C2_completion_amended envWellBehaved cfg0 issuerX 0 sessA
    req1 { credential := some "b", credentials := none,
           cNonce := createNonceJwt cfg0 issuerX 0, cNonceExpiresIn := 60 }
    hm (by simp [sessA]) (by simp [sessA]) (by decide) (by decide)
  exact h5

/-- C9 as amended: every successful `createCredentialResponse` carries the
freshly minted nonce and its expiry, and places the encoded credential in
the singular field exactly when the request used the singular proof field,
and in the plural array — one credential per submitted proof — exactly
when it used the batch field, regardless of how many proofs the batch
holds. -/
theorem C9_response_fields_amended (env : Env) (cfg : Config) (issuer : IssuerRecord)
    (now : Nat) (session : Session) (request : ParsedRequest) (r : CredentialResponse)
    (hok : (createCredentialResponse env cfg issuer now session request).result = .ok r) :
    r.cNonce = createNonceJwt cfg issuer now ∧
    r.cNonceExpiresIn = cfg.cNonceExpiresInSeconds ∧
    (∀ jwt, request.proofsField = some (.single jwt) →
      r.credential.isSome = true ∧ r.credentials = none) ∧
    (∀ jwts, request.proofsField = some (.batch jwts) →
      r.credential = none ∧ r.credentials.isSome = true ∧
      (r.credentials.getD []).length = jwts.length) := by
  obtain ⟨fmt, signers, signed, hid, hfmt, hne, hP, hS, houtcome⟩ :=
    createCredentialResponse_ok_elim env cfg issuer now session request r hok
  obtain ⟨bindings, hb, hidEq, hnotIssued, hneIds, hlen⟩ :=
    getSignedCredentials_ok_elim _ _ _ _ _ _ hS
  have hlenS : signed.credentials.length = request.proofJwts.length := by
    rw [hlen, getHolderBindingFromRequestProofs_ok_length env signers bindings hb,
      processProofs_ok_length env cfg issuer now request.proofJwts none signers hP]
  rw [houtcome] at hok
  simp only [Except.ok.injEq] at hok
  subst hok
  refine ⟨rfl, rfl, ?_, ?_⟩
  · intro jwt hpf
    have hlen1 : signed.credentials.length = 1 := by
      rw [hlenS]
      simp [ParsedRequest.proofJwts, hpf]
    constructor
    · cases hcreds : signed.credentials with
      | nil => rw [hcreds] at hlen1; cases hlen1
      | cons c t => simp [hpf, hcreds]
    · simp [hpf]
  · intro jwts hpf
    refine ⟨by simp [hpf], by simp [hpf], ?_⟩
    have hjl : request.proofJwts = jwts := by simp [ParsedRequest.proofJwts, hpf]
    simp only [hpf]
    simp [hlenS, hjl]

/-- Witness for the amended C9: the single-proof-field request yields a
populated singular field and no plural array. -/
theorem C9_response_fields_amended_witness :
    ({ credential := some "b", credentials := none,
       cNonce := createNonceJwt cfg0 issuerX 0, cNonceExpiresIn := 60 } :
      CredentialResponse).credential.isSome = true ∧
    ({ credential := some "b", credentials := none,
       cNonce := createNonceJwt cfg0 issuerX 0, cNonceExpiresIn := 60 } :
      CredentialResponse).credentials = none :=
  (C9_response_fields_amended (envFor "c1") cfg0 issuerX 0 sessA req1
    { credential := some "b", credentials := none,
      cNonce := createNonceJwt cfg0 issuerX 0, cNonceExpiresIn := 60 }
    (by decide)).2.2.1 "p1" rfl
